import Mathlib

/-!
Verification of `biobb_wf_md_setup_api/notebooks/utils.py`, a helper layer
driving a remote job-submission REST API: job launch (`launch_job`), status
polling (`check_status` / `check_job`) and result retrieval (`retrieve_data` /
`get_file`).  The Python functions are shallowly embedded: HTTP responses
become explicit `(status, json)` pairs, the network becomes a function from
URLs to bytes, the local file system becomes an association list from file
names to contents, and Python dictionaries become association lists with
overwrite-on-insert semantics.  Raw bytes are modelled as `String`.
-/

namespace MDSetup

/-- JSON values, as produced by `json.loads`.  Objects keep insertion order,
like Python dictionaries. -/
inductive Json where
  | jnull : Json
  | jbool : Bool → Json
  | jnum : Int → Json
  | jstr : String → Json
  | jarr : List Json → Json
  | jobj : List (String × Json) → Json
  deriving Repr

/-- Escape one character for a JSON string literal (the common escapes used
by `json.dumps`). -/
def escapeChar (c : Char) : String :=
  if c = '"' then "\\\""
  else if c = '\\' then "\\\\"
  else if c = '\n' then "\\n"
  else if c = '\t' then "\\t"
  else if c = '\r' then "\\r"
  else String.singleton c

/-- Escape a whole string for a JSON string literal. -/
def escapeStr (s : String) : String :=
  String.join (s.toList.map escapeChar)

mutual

/-- `json.dumps` with the default separators. -/
def Json.dumps : Json → String
  | .jnull => "null"
  | .jbool b => if b then "true" else "false"
  | .jnum n => toString n
  | .jstr s => "\"" ++ escapeStr s ++ "\""
  | .jarr xs => "[" ++ dumpsArr xs ++ "]"
  | .jobj kvs => "\x7b" ++ dumpsObj kvs ++ "\x7d"

/-- Comma-separated serialization of a JSON array body. -/
def dumpsArr : List Json → String
  | [] => ""
  | [x] => Json.dumps x
  | x :: y :: xs => Json.dumps x ++ ", " ++ dumpsArr (y :: xs)

/-- Comma-separated serialization of a JSON object body. -/
def dumpsObj : List (String × Json) → String
  | [] => ""
  | [(k, v)] => "\"" ++ escapeStr k ++ "\": " ++ Json.dumps v
  | (k, v) :: p :: kvs =>
      "\"" ++ escapeStr k ++ "\": " ++ Json.dumps v ++ ", " ++ dumpsObj (p :: kvs)

end

/-- Subscript access `j[k]` on a parsed JSON value: a field lookup on an
object (first match, though Python objects never hold duplicate keys);
`none` models the `KeyError` / `TypeError` raised otherwise. -/
def Json.get? (j : Json) (k : String) : Option Json :=
  match j with
  | .jobj kvs => kvs.lookup k
  | _ => none

/-- The `Response` class of `utils.py`: an HTTP status code paired with the
parsed JSON body. -/
structure Response where
  status : Nat
  json : Json
  deriving Repr

/-- Association list with Python-dict insertion semantics: assigning to an
existing key overwrites its value in place, otherwise the pair is appended. -/
def insertAL {α : Type} : List (String × α) → String → α → List (String × α)
  | [], k, v => [(k, v)]
  | (k', v') :: rest, k, v =>
      if k' = k then (k, v) :: rest else (k', v') :: insertAL rest k v

/-- Association-list lookup (first match). -/
def lookupAL {α : Type} : List (String × α) → String → Option α
  | [], _ => none
  | (k', v') :: rest, k => if k' = k then some v' else lookupAL rest k

/-- How many entries of an association list carry the key `k`. -/
def countKey {α : Type} : List (String × α) → String → Nat
  | [], _ => 0
  | (k', _) :: rest, k => (if k' = k then 1 else 0) + countKey rest k

/-- Every key occurs at most once: the invariant of a Python dictionary. -/
def KeysOnce {α : Type} (l : List (String × α)) : Prop :=
  ∀ q, countKey l q ≤ 1

/-- The local file system: file name ↦ raw contents. -/
abbrev FsL := List (String × String)

/-! ## Status poller: `check_status` -/

/-- The three sequential `if` statements of `check_status` choosing the sleep
amount from the current counter: 1 while `counter < 10`, 10 while
`10 <= counter < 60`, 60 once `counter >= 60`. -/
def slpOf (counter : Nat) : Nat :=
  if counter < 10 then 1
  else if 10 ≤ counter ∧ counter < 60 then 10
  else 60

/-- The counter of `check_status` after `n` loop iterations, starting from 0:
each iteration adds the sleep amount chosen from the current counter
(`counter = counter + slp`). -/
def counterSeq : Nat → Nat
  | 0 => 0
  | n + 1 => counterSeq n + slpOf (counterSeq n)

/-- The `while True` loop of `check_status`, with the poll responses given as
a stream `f` (the status code of the `i`-th GET) and an explicit fuel bound:
`none` means the loop is still running after `fuel` iterations.  Each
iteration picks the sleep from the counter, adds it to the counter, sleeps,
polls, and returns the counter when the polled status equals `ok` or
`error`. -/
def check_status_go (f : Nat → Nat) (ok error : Nat) : Nat → Nat → Nat → Option Nat
  | _, _, 0 => none
  | i, counter, fuel + 1 =>
      let c := counter + slpOf counter
      if f i = ok ∨ f i = error then some c
      else check_status_go f ok error (i + 1) c fuel

/-- `check_status` run from the initial state (`counter = 0`, first poll). -/
def check_status_run (f : Nat → Nat) (ok error fuel : Nat) : Option Nat :=
  check_status_go f ok error 0 0 fuel

/-- The sleep amounts `check_status` performs, in order, over at most `fuel`
iterations (the terminating iteration's sleep included, since the code sleeps
before polling). -/
def check_status_sleeps (f : Nat → Nat) (ok error : Nat) : Nat → Nat → Nat → List Nat
  | _, _, 0 => []
  | i, counter, fuel + 1 =>
      let s := slpOf counter
      if f i = ok ∨ f i = error then [s]
      else s :: check_status_sleeps f ok error (i + 1) (counter + s) fuel

/-! ## Job launcher: `launch_job` -/

/-- A Python value passed as a keyword argument to `launch_job`: a string, a
dict (a configuration object), or anything else (ignored by the function). -/
inductive PyVal where
  | vstr : String → PyVal
  | vdict : List (String × Json) → PyVal
  | vother : PyVal
  deriving Repr

/-- A file attachment in the `files` mapping: `(filename, file object)`,
with the file object's bytes inlined. -/
structure Attachment where
  filename : String
  content : String
  deriving Repr, DecidableEq

/-- `encode_config`: serialize a dict to JSON text and wrap its encoded bytes
in a buffer (the bytes are modelled by the string itself). -/
def encode_config (data : List (String × Json)) : String :=
  Json.dumps (.jobj data)

/-- Is `p` a prefix of the character list `s`? -/
def startswith_chars : List Char → List Char → Bool
  | _, [] => true
  | [], _ :: _ => false
  | c :: s, d :: p => c == d && startswith_chars s p

/-- Python's `str.startswith`, defined over the character lists so that
proofs can evaluate it on literals. -/
def startswith (s p : String) : Bool :=
  startswith_chars s.toList p.toList

/-- One iteration of the `for key, value in kwargs.items()` loop of
`launch_job`, classifying the argument into the `data` (form fields) and
`files` (uploads) dictionaries.  `fs` is the local file system (`open` reads
it, `Path(value).is_file()` probes it); a missing file on an `input`-named
argument is the `FileNotFoundError` that `open` would raise. -/
def launch_step (fs : FsL) (acc : List (String × String) × List (String × Attachment))
    (kv : String × PyVal) :
    Except String (List (String × String) × List (String × Attachment)) :=
  match kv.2 with
  | .vstr value =>
      if startswith kv.1 "input" then
        match lookupAL fs value with
        | some content => .ok (acc.1, insertAL acc.2 kv.1 ⟨value, content⟩)
        | none => .error "FileNotFoundError"
      else if startswith kv.1 "output" then
        .ok (insertAL acc.1 kv.1 value, acc.2)
      else
        match lookupAL fs value with
        | some content => .ok (acc.1, insertAL acc.2 kv.1 ⟨value, content⟩)
        | none => .ok acc
  | .vdict d => .ok (acc.1, insertAL acc.2 "config" ⟨"prop.json", encode_config d⟩)
  | .vother => .ok acc

/-- The classification loop of `launch_job`: fold `launch_step` over the
keyword arguments in order, starting from empty `data` and `files`
dictionaries. -/
def launch_build (fs : FsL) (kwargs : List (String × PyVal)) :
    Except String (List (String × String) × List (String × Attachment)) :=
  kwargs.foldlM (launch_step fs) ([], [])

/-- The tail of `launch_job` handling the POST response: return the `token`
field of the JSON body when the status is 303 (`KeyError` if it is absent),
and fall through returning `None` for every other status. -/
def launch_job_result (response : Response) : Except String (Option Json) :=
  if response.status = 303 then
    match response.json.get? "token" with
    | some t => .ok (some t)
    | none => .error "KeyError"
  else .ok none

/-! ## Terminal poll: `check_job` -/

/-- The body of the `for outf in response.json['output_files']` loop of
`check_job`: build the `{'id': outf['id'], 'name': outf['name']}` items in
order; `none` models the exception raised when an element lacks `id` or
`name`. -/
def extract_items : List Json → Option (List (Json × Json))
  | [] => some []
  | outf :: rest => do
      let i ← outf.get? "id"
      let n ← outf.get? "name"
      let tail ← extract_items rest
      pure ((i, n) :: tail)

/-- The extraction of `check_job`: read `response.json['output_files']` and
collect each element's `id` and `name` fields in order; `none` models the
exception raised when the field is missing or not a list. -/
def check_job_extract (body : Json) : Option (List (Json × Json)) :=
  match body.get? "output_files" with
  | some (.jarr xs) => extract_items xs
  | _ => none

/-- The result of `check_job` on the follow-up status response: the extracted
`(id, name)` pairs when the status is 200, `None` otherwise; the outer
`Option` is `none` when the extraction raises. -/
def check_job_model (response : Response) : Option (Option (List (Json × Json))) :=
  if response.status = 200 then (check_job_extract response.json).map some
  else some none

/-- A status body of the shape `check_job` consumes: an object whose
`output_files` field is an array of `(id, name)` objects. -/
def mkOutBody (l : List (Json × Json)) : Json :=
  .jobj [("output_files", .jarr (l.map (fun p => .jobj [("id", p.1), ("name", p.2)])))]

/-! ## Result retriever: `retrieve_data` -/

/-- An output-file descriptor `(id, name)` as consumed by `retrieve_data`. -/
structure OutFile where
  id : String
  name : String
  deriving Repr, DecidableEq

/-- The download URL `retrieve_data` builds for a descriptor. -/
def mkDataUrl (apiURL : String) (o : OutFile) : String :=
  apiURL ++ "retrieve/data/" ++ o.id

/-- `get_file`: GET `url` following redirects and write the raw response
bytes to `filename`, overwriting or creating the file.  `net` maps each URL
to the bytes the server returns. -/
def get_file (net : String → String) (fs : FsL) (url filename : String) : FsL :=
  insertAL fs filename (net url)

/-- The download loop of `retrieve_data`, threading the file system and the
list of URLs requested so far. -/
def retrieve_loop (net : String → String) (apiURL : String) :
    List OutFile → FsL × List String → FsL × List String
  | [], acc => acc
  | o :: rest, (fs, reqs) =>
      retrieve_loop net apiURL rest
        (get_file net fs (mkDataUrl apiURL o) o.name, reqs ++ [mkDataUrl apiURL o])

/-- `retrieve_data`: on an empty (falsy) descriptor list return the sentinel
string `"No files provided"` without downloading anything; otherwise download
every descriptor in order and fall through returning `None`.  The result is
`(final file system, requested URLs, returned value)`. -/
def retrieve_data (net : String → String) (out_files : List OutFile)
    (apiURL : String) (fs : FsL) : FsL × List String × Option String :=
  if out_files.isEmpty then (fs, [], some "No files provided")
  else
    let r := retrieve_loop net apiURL out_files (fs, [])
    (r.1, r.2, none)

/-! ## Association-list lemmas -/

theorem lookupAL_insert_self {α : Type} (l : List (String × α)) (k : String) (v : α) :
    lookupAL (insertAL l k v) k = some v := by
  induction l with
  | nil => simp [insertAL, lookupAL]
  | cons p rest ih =>
      rcases p with ⟨k', v'⟩
      by_cases h : k' = k
      · simp [insertAL, lookupAL, h]
      · simp [insertAL, lookupAL, h, ih]

theorem lookupAL_insert_ne {α : Type} (l : List (String × α)) (k q : String) (v : α)
    (h : k ≠ q) : lookupAL (insertAL l k v) q = lookupAL l q := by
  induction l with
  | nil => simp [insertAL, lookupAL, h]
  | cons p rest ih =>
      rcases p with ⟨k', v'⟩
      by_cases hk : k' = k
      · subst hk
        simp [insertAL, lookupAL, h]
      · simp [insertAL, lookupAL, hk, ih]

theorem countKey_insert_ne {α : Type} (l : List (String × α)) (k q : String) (v : α)
    (h : k ≠ q) : countKey (insertAL l k v) q = countKey l q := by
  induction l with
  | nil => simp [insertAL, countKey, h]
  | cons p rest ih =>
      rcases p with ⟨k', v'⟩
      by_cases hk : k' = k
      · subst hk
        simp [insertAL, countKey, h]
      · simp [insertAL, countKey, hk, ih]

theorem countKey_insert_self {α : Type} (l : List (String × α)) (k : String) (v : α) :
    countKey (insertAL l k v) k = max (countKey l k) 1 := by
  induction l with
  | nil => simp [insertAL, countKey]
  | cons p rest ih =>
      rcases p with ⟨k', v'⟩
      by_cases hk : k' = k
      · subst hk
        simp [insertAL, countKey]
      · simp only [insertAL, countKey, if_neg hk, ih]
        omega

theorem keysOnce_insertAL {α : Type} {l : List (String × α)} (k : String) (v : α)
    (h : KeysOnce l) : KeysOnce (insertAL l k v) := by
  intro q
  by_cases hk : k = q
  · subst hk
    rw [countKey_insert_self]
    have := h k
    omega
  · rw [countKey_insert_ne l k q v hk]
    exact h q

theorem keysOnce_nil {α : Type} : KeysOnce ([] : List (String × α)) := by
  intro q
  simp [countKey]

/-! ## Poller lemmas -/

theorem check_status_go_succ (f : Nat → Nat) (ok error i counter fuel : Nat) :
    check_status_go f ok error i counter (fuel + 1) =
      if f i = ok ∨ f i = error then some (counter + slpOf counter)
      else check_status_go f ok error (i + 1) (counter + slpOf counter) fuel := by
  rfl

theorem check_status_sleeps_succ (f : Nat → Nat) (ok error i counter fuel : Nat) :
    check_status_sleeps f ok error i counter (fuel + 1) =
      if f i = ok ∨ f i = error then [slpOf counter]
      else slpOf counter ::
        check_status_sleeps f ok error (i + 1) (counter + slpOf counter) fuel := by
  rfl

theorem check_status_go_sum (f : Nat → Nat) (ok error : Nat) :
    ∀ fuel i counter r, check_status_go f ok error i counter fuel = some r →
      r = counter + (check_status_sleeps f ok error i counter fuel).sum := by
  intro fuel
  induction fuel with
  | zero => intro i counter r h; simp [check_status_go] at h
  | succ k ih =>
      intro i counter r h
      rw [check_status_go_succ] at h
      rw [check_status_sleeps_succ]
      by_cases ht : f i = ok ∨ f i = error
      · rw [if_pos ht] at h
        rw [if_pos ht]
        simp at h
        simp [← h]
      · rw [if_neg ht] at h
        rw [if_neg ht]
        have := ih (i + 1) (counter + slpOf counter) r h
        simp [this]
        omega

theorem check_status_go_terminal (f : Nat → Nat) (ok error : Nat) :
    ∀ fuel i counter r, check_status_go f ok error i counter fuel = some r →
      ∃ n, f n = ok ∨ f n = error := by
  intro fuel
  induction fuel with
  | zero => intro i counter r h; simp [check_status_go] at h
  | succ k ih =>
      intro i counter r h
      rw [check_status_go_succ] at h
      by_cases ht : f i = ok ∨ f i = error
      · exact ⟨i, ht⟩
      · rw [if_neg ht] at h
        exact ih (i + 1) (counter + slpOf counter) r h

theorem check_status_go_of_terminal (f : Nat → Nat) (ok error : Nat) :
    ∀ fuel i counter, (∃ j, j < fuel ∧ (f (i + j) = ok ∨ f (i + j) = error)) →
      ∃ r, check_status_go f ok error i counter fuel = some r := by
  intro fuel
  induction fuel with
  | zero =>
      rintro i counter ⟨j, hj, _⟩
      omega
  | succ k ih =>
      rintro i counter ⟨j, hj, hterm⟩
      rw [check_status_go_succ]
      by_cases ht : f i = ok ∨ f i = error
      · exact ⟨_, by rw [if_pos ht]⟩
      · have hj0 : j ≠ 0 := by
          rintro rfl
          simp only [Nat.add_zero] at hterm
          exact ht hterm
        obtain ⟨j', rfl⟩ : ∃ j', j = j' + 1 := ⟨j - 1, by omega⟩
        have hterm' : f (i + 1 + j') = ok ∨ f (i + 1 + j') = error := by
          have : i + 1 + j' = i + (j' + 1) := by omega
          rw [this]
          exact hterm
        obtain ⟨r, hr⟩ := ih (i + 1) (counter + slpOf counter) ⟨j', by omega, hterm'⟩
        exact ⟨r, by rw [if_neg ht]; exact hr⟩

/-! ## Launcher and retriever lemmas -/

theorem launch_step_keysOnce (fs : FsL)
    (acc acc' : List (String × String) × List (String × Attachment))
    (kv : String × PyVal) (h : launch_step fs acc kv = .ok acc')
    (hk : KeysOnce acc.2) : KeysOnce acc'.2 := by
  rcases kv with ⟨key, val⟩
  cases val with
  | vstr value =>
      simp only [launch_step] at h
      by_cases hi : startswith key "input"
      · rw [if_pos hi] at h
        cases hf : lookupAL fs value with
        | none => rw [hf] at h; cases h
        | some content =>
            rw [hf] at h
            cases h
            exact keysOnce_insertAL key ⟨value, content⟩ hk
      · rw [if_neg hi] at h
        by_cases ho : startswith key "output"
        · rw [if_pos ho] at h
          cases h
          exact hk
        · rw [if_neg ho] at h
          cases hf : lookupAL fs value with
          | none => rw [hf] at h; cases h; exact hk
          | some content =>
              rw [hf] at h
              cases h
              exact keysOnce_insertAL key ⟨value, content⟩ hk
  | vdict d =>
      simp only [launch_step] at h
      cases h
      exact keysOnce_insertAL "config" ⟨"prop.json", encode_config d⟩ hk
  | vother =>
      simp only [launch_step] at h
      cases h
      exact hk

theorem launch_foldlM_keysOnce (fs : FsL) :
    ∀ (kwargs : List (String × PyVal))
      (acc : List (String × String) × List (String × Attachment))
      (d : List (String × String)) (fl : List (String × Attachment)),
      KeysOnce acc.2 → kwargs.foldlM (launch_step fs) acc = .ok (d, fl) →
      KeysOnce fl := by
  intro kwargs
  induction kwargs with
  | nil =>
      intro acc d fl hk h
      simp only [List.foldlM_nil, pure, Except.pure] at h
      cases h
      exact hk
  | cons kv rest ih =>
      intro acc d fl hk h
      rw [List.foldlM_cons] at h
      cases hstep : launch_step fs acc kv with
      | error e =>
          rw [hstep] at h
          simp only [bind, Except.bind] at h
          cases h
      | ok acc' =>
          rw [hstep] at h
          simp only [bind, Except.bind] at h
          exact ih acc' d fl (launch_step_keysOnce fs acc acc' kv hstep hk) h

theorem extract_items_map (l : List (Json × Json)) :
    extract_items (l.map (fun p => Json.jobj [("id", p.1), ("name", p.2)])) = some l := by
  induction l with
  | nil => rfl
  | cons p rest ih =>
      have h1 : extract_items
          ((p :: rest).map (fun p => Json.jobj [("id", p.1), ("name", p.2)])) =
          (extract_items (rest.map (fun p => Json.jobj [("id", p.1), ("name", p.2)]))).bind
            (fun tail => some ((p.1, p.2) :: tail)) := rfl
      rw [h1, ih]
      simp

theorem retrieve_loop_requests (net : String → String) (apiURL : String) :
    ∀ (l : List OutFile) (fs : FsL) (reqs : List String),
      (retrieve_loop net apiURL l (fs, reqs)).2 = reqs ++ l.map (mkDataUrl apiURL) := by
  intro l
  induction l with
  | nil => intro fs reqs; simp [retrieve_loop]
  | cons o rest ih =>
      intro fs reqs
      rw [retrieve_loop]
      rw [ih]
      simp

theorem launch_build_singleton (fs : FsL) (kv : String × PyVal) :
    launch_build fs [kv] = launch_step fs ([], []) kv := by
  cases hstep : launch_step fs ([], []) kv with
  | error e =>
      simp [launch_build, List.foldlM_cons, List.foldlM_nil, hstep, bind, Except.bind]
  | ok a =>
      simp [launch_build, List.foldlM_cons, List.foldlM_nil, hstep, bind, Except.bind,
        pure, Except.pure]

theorem check_job_extract_mkOutBody (l : List (Json × Json)) :
    check_job_extract (mkOutBody l) = some l := by
  have h : check_job_extract (mkOutBody l) =
      extract_items (l.map (fun p => Json.jobj [("id", p.1), ("name", p.2)])) := rfl
  rw [h, extract_items_map]

/-! ## The claims -/

/-- C1: `launch_job` returns the `token` field of the parsed JSON body exactly
when the HTTP status is 303, and returns no token (`None`) for every other
status code. -/
theorem launch_job_token_iff_303 (response r2 : Response) (t : Json)
    (h : response.json.get? "token" = some t) (h2 : r2.status ≠ 303) :
    launch_job_result response = .ok (if response.status = 303 then some t else none) ∧
    launch_job_result r2 = .ok none := by
  constructor
  · by_cases hs : response.status = 303
    · rw [if_pos hs]
      simp only [launch_job_result, if_pos hs, h]
    · rw [if_neg hs]
      simp only [launch_job_result, if_neg hs]
  · simp only [launch_job_result, if_neg h2]

/-- Witness for C1: a mock 303 response with a token yields exactly that token,
and a 500 response with the same body yields `None`. -/
theorem launch_job_token_iff_303_witness :
    launch_job_result ⟨303, .jobj [("token", .jstr "abc123")]⟩ =
      .ok (some (Json.jstr "abc123")) ∧
    launch_job_result ⟨500, .jobj [("token", .jstr "abc123")]⟩ = .ok none := by
  have h := launch_job_token_iff_303 ⟨303, .jobj [("token", .jstr "abc123")]⟩
    ⟨500, .jobj [("token", .jstr "abc123")]⟩ (.jstr "abc123") rfl (by decide)
  exact ⟨h.1, h.2⟩

/-- C2: each iteration of `check_status` sleeps 1 second while the counter is
below 10, 10 seconds while it is at least 10 and below 60, and 60 seconds once
it is at least 60; the counter accumulates the sleep amounts, and the value
returned on termination equals the total seconds slept; for the response
sequence [202, 202, 200] the poller returns 3. -/
theorem check_status_sleep_schedule (f : Nat → Nat) (ok error fuel r c : Nat)
    (h : check_status_run f ok error fuel = some r) :
    slpOf c = (if c < 10 then 1 else if c < 60 then 10 else 60) ∧
    r = (check_status_sleeps f ok error 0 0 fuel).sum ∧
    check_status_run (fun i => [202, 202, 200].getD i 0) 200 500 3 = some 3 := by
  refine ⟨?_, ?_, rfl⟩
  · simp only [slpOf]
    by_cases h1 : c < 10
    · rw [if_pos h1, if_pos h1]
    · rw [if_neg h1, if_neg h1]
      by_cases h2 : c < 60
      · rw [if_pos (show 10 ≤ c ∧ c < 60 from ⟨by omega, h2⟩), if_pos h2]
      · rw [if_neg (show ¬(10 ≤ c ∧ c < 60) by omega), if_neg h2]
  · have := check_status_go_sum f ok error fuel 0 0 r h
    simpa using this

/-- Witness for C2: the schedule facts instantiated on the [202, 202, 200]
run itself (and the third tier's sleep at counter 61). -/
theorem check_status_sleep_schedule_witness :
    slpOf 61 = (if 61 < 10 then 1 else if 61 < 60 then 10 else 60) ∧
    3 = (check_status_sleeps (fun i => [202, 202, 200].getD i 0) 200 500 0 0 3).sum ∧
    check_status_run (fun i => [202, 202, 200].getD i 0) 200 500 3 = some 3 :=
  check_status_sleep_schedule (fun i => [202, 202, 200].getD i 0) 200 500 3 3 61 rfl

/-- C3: `check_status` terminates exactly when some polled response carries
one of the two terminal codes; a stream that never does makes the loop run
beyond every bound. -/
theorem check_status_terminates_iff (f : Nat → Nat) (ok error : Nat) :
    (∃ fuel r, check_status_run f ok error fuel = some r) ↔
    (∃ n, f n = ok ∨ f n = error) := by
  constructor
  · rintro ⟨fuel, r, h⟩
    exact check_status_go_terminal f ok error fuel 0 0 r h
  · rintro ⟨n, hn⟩
    obtain ⟨r, hr⟩ := check_status_go_of_terminal f ok error (n + 1) 0 0
      ⟨n, by omega, by simpa using hn⟩
    exact ⟨n + 1, r, hr⟩

/-- C4: a string-valued keyword argument is classified in order: a name
starting with "input" is attached as a file upload, else a name starting with
"output" becomes a plain form field, else an existing local file is attached
as an upload; in particular "input_structure" with an existing file is an
upload, not a form field. -/
theorem launch_classification (fs : FsL) (key value content : String)
    (h : lookupAL fs value = some content) :
    launch_build fs [(key, .vstr value)] =
      .ok (if startswith key "input" then ([], [(key, ⟨value, content⟩)])
           else if startswith key "output" then ([(key, value)], [])
           else ([], [(key, ⟨value, content⟩)])) ∧
    launch_build fs [("input_structure", .vstr value)] =
      .ok ([], [("input_structure", ⟨value, content⟩)]) := by
  constructor
  · rw [launch_build_singleton]
    by_cases hi : startswith key "input"
    · simp [launch_step, hi, h, insertAL]
    · by_cases ho : startswith key "output"
      · simp [launch_step, hi, ho, insertAL]
      · simp [launch_step, hi, ho, h, insertAL]
  · rw [launch_build_singleton]
    have hinp : (startswith "input_structure" "input") = true := by decide
    simp [launch_step, hinp, h, insertAL]

/-- Witness for C4: with a file system holding "struct.pdb", both an
"input_topology" and an "input_structure" argument become file uploads. -/
theorem launch_classification_witness :
    launch_build [("struct.pdb", "PDBBYTES")] [("input_topology", PyVal.vstr "struct.pdb")] =
      .ok ([], [("input_topology", ⟨"struct.pdb", "PDBBYTES"⟩)]) ∧
    launch_build [("struct.pdb", "PDBBYTES")] [("input_structure", PyVal.vstr "struct.pdb")] =
      .ok ([], [("input_structure", ⟨"struct.pdb", "PDBBYTES"⟩)]) := by
  have h := launch_classification [("struct.pdb", "PDBBYTES")] "input_topology"
    "struct.pdb" "PDBBYTES" rfl
  obtain ⟨h1, h2⟩ := h
  rw [if_pos (show (startswith "input_topology" "input") = true by decide)] at h1
  exact ⟨h1, h2⟩

/-- C5: a dict-valued keyword argument is serialized to JSON bytes and
attached as a file upload under field name "config" with filename
"prop.json", whatever the argument's name. -/
theorem launch_config_upload (fs : FsL) (key : String) (d : List (String × Json)) :
    launch_build fs [(key, .vdict d)] =
      .ok ([], [("config", ⟨"prop.json", encode_config d⟩)]) ∧
    encode_config d = Json.dumps (.jobj d) := by
  refine ⟨?_, rfl⟩
  rw [launch_build_singleton]
  simp [launch_step, insertAL]

/-- C6: on a 200 follow-up status response `check_job` returns the
`(id, name)` pairs extracted in order from `output_files`, and on every
non-200 status it returns `None`. -/
theorem check_job_outputs (status : Nat) (l : List (Json × Json)) (body : Json)
    (h : status ≠ 200) :
    check_job_model ⟨200, mkOutBody l⟩ = some (some l) ∧
    check_job_model ⟨status, body⟩ = some none := by
  constructor
  · show (if (200 : Nat) = 200
        then (check_job_extract (mkOutBody l)).map some else some none) = some (some l)
    rw [if_pos rfl, check_job_extract_mkOutBody]
    rfl
  · simp [check_job_model, h]

/-- Witness for C6: a 200 response with one output descriptor yields it, and
a 404 response yields `None`. -/
theorem check_job_outputs_witness :
    check_job_model ⟨200, mkOutBody [(Json.jstr "1", Json.jstr "a.pdb")]⟩ =
      some (some [(Json.jstr "1", Json.jstr "a.pdb")]) ∧
    check_job_model ⟨404, Json.jnull⟩ = some none := by
  have h := check_job_outputs 404 [(Json.jstr "1", Json.jstr "a.pdb")] Json.jnull (by decide)
  exact ⟨h.1, h.2⟩

/-- C7: on a non-empty descriptor list `retrieve_data` issues one
redirect-following GET per descriptor, in order, to the data URL built from
its id, returns `None`, and writes each descriptor's name as a local file
holding the downloaded bytes (shown for two descriptors with distinct
names). -/
theorem retrieve_data_downloads (net : String → String) (apiURL : String) (fs : FsL)
    (l : List OutFile) (d1 d2 : OutFile) (hl : l ≠ []) (hname : d1.name ≠ d2.name) :
    (retrieve_data net l apiURL fs).2.1 = l.map (mkDataUrl apiURL) ∧
    (retrieve_data net l apiURL fs).2.2 = none ∧
    lookupAL (retrieve_data net [d1, d2] apiURL fs).1 d1.name =
      some (net (mkDataUrl apiURL d1)) ∧
    lookupAL (retrieve_data net [d1, d2] apiURL fs).1 d2.name =
      some (net (mkDataUrl apiURL d2)) := by
  have hne : l.isEmpty = false := by
    cases l with
    | nil => exact absurd rfl hl
    | cons a as => rfl
  refine ⟨?_, ?_, ?_, ?_⟩
  · simp only [retrieve_data, hne, Bool.false_eq_true, if_false]
    simpa using retrieve_loop_requests net apiURL l fs []
  · simp only [retrieve_data, hne, Bool.false_eq_true, if_false]
  · have hfs : (retrieve_data net [d1, d2] apiURL fs).1 =
        insertAL (insertAL fs d1.name (net (mkDataUrl apiURL d1))) d2.name
          (net (mkDataUrl apiURL d2)) := rfl
    rw [hfs, lookupAL_insert_ne _ _ _ _ (Ne.symm hname), lookupAL_insert_self]
  · have hfs : (retrieve_data net [d1, d2] apiURL fs).1 =
        insertAL (insertAL fs d1.name (net (mkDataUrl apiURL d1))) d2.name
          (net (mkDataUrl apiURL d2)) := rfl
    rw [hfs, lookupAL_insert_self]

/-- Witness for C7: with the identity network, one descriptor produces its
single request, and two descriptors produce two files whose contents are the
bytes served at their data URLs. -/
theorem retrieve_data_downloads_witness :
    (retrieve_data (fun u => u) [⟨"1", "f1"⟩] "api/" []).2.1 =
      [(⟨"1", "f1"⟩ : OutFile)].map (mkDataUrl "api/") ∧
    (retrieve_data (fun u => u) [⟨"1", "f1"⟩] "api/" []).2.2 = none ∧
    lookupAL (retrieve_data (fun u => u) [⟨"1", "f1"⟩, ⟨"2", "f2"⟩] "api/" []).1 "f1" =
      some (mkDataUrl "api/" ⟨"1", "f1"⟩) ∧
    lookupAL (retrieve_data (fun u => u) [⟨"1", "f1"⟩, ⟨"2", "f2"⟩] "api/" []).1 "f2" =
      some (mkDataUrl "api/" ⟨"2", "f2"⟩) := by
  have h := retrieve_data_downloads (fun u => u) "api/" [] [⟨"1", "f1"⟩] ⟨"1", "f1"⟩
    ⟨"2", "f2"⟩ (by decide) (by decide)
  exact ⟨h.1, h.2.1, h.2.2.1, h.2.2.2⟩

/-- C8 counterexample: the iteration that crosses into the third sleep tier
steps the counter from 50 to 60, not from 59 to 60 — the counter never takes
the value 59 (checked past the crossing). -/
theorem counterSeq_no_59_step :
    counterSeq 14 = 50 ∧ counterSeq 15 = 60 ∧ counterSeq 14 ≠ 59 ∧
    ((List.range 16).all (fun n => counterSeq n != 59)) = true := by
  decide

/-- C8 (amended): the tier boundary transitions of the counter occur at
9→10 and 50→60: iteration 10 steps the counter from 9 to 10 and iteration 15
from 50 to 60, the first counter values at least 10 and 60 respectively; the
poller returns 10 when the 10th poll is terminal and 60 when the 15th is. -/
theorem counter_tier_transitions :
    counterSeq 9 = 9 ∧ counterSeq 10 = 10 ∧ counterSeq 14 = 50 ∧ counterSeq 15 = 60 ∧
    ((List.range 10).all (fun n => Nat.blt (counterSeq n) 10)) = true ∧
    ((List.range 15).all (fun n => Nat.blt (counterSeq n) 60)) = true ∧
    check_status_run (fun i => if i = 9 then 200 else 202) 200 500 10 = some 10 ∧
    check_status_run (fun i => if i = 14 then 200 else 202) 200 500 15 = some 60 := by
  decide

/-- C9: on an empty descriptor list `retrieve_data` downloads nothing,
leaves the file system alone, and returns the sentinel string
"No files provided" rather than `None`. -/
theorem retrieve_data_empty (net : String → String) (apiURL : String) (fs : FsL) :
    retrieve_data net [] apiURL fs = (fs, [], some "No files provided") := rfl

/-- C10: the `files` mapping built by `launch_job` holds at most one "config"
entry, and when several arguments are dicts only the last one's JSON survives
under it. -/
theorem launch_config_overwrite (fs : FsL) (kwargs : List (String × PyVal))
    (d : List (String × String)) (fl : List (String × Attachment))
    (k1 k2 : String) (d1 d2 : List (String × Json))
    (h : launch_build fs kwargs = .ok (d, fl)) :
    countKey fl "config" ≤ 1 ∧
    launch_build fs [(k1, .vdict d1), (k2, .vdict d2)] =
      .ok ([], [("config", ⟨"prop.json", encode_config d2⟩)]) := by
  constructor
  · exact launch_foldlM_keysOnce fs kwargs ([], []) d fl keysOnce_nil h "config"
  · rfl

/-- Witness for C10: two dict arguments named "p1" and "p2" leave a single
"config" upload carrying the second dict's JSON. -/
theorem launch_config_overwrite_witness :
    countKey [("config", (⟨"prop.json", encode_config [("a", Json.jnum 1)]⟩ : Attachment))]
      "config" ≤ 1 ∧
    launch_build []
      [("p1", PyVal.vdict [("a", Json.jnum 0)]), ("p2", PyVal.vdict [("a", Json.jnum 1)])] =
      .ok ([], [("config", ⟨"prop.json", encode_config [("a", Json.jnum 1)]⟩)]) := by
  have h := launch_config_overwrite []
    [("p1", PyVal.vdict [("a", Json.jnum 0)]), ("p2", PyVal.vdict [("a", Json.jnum 1)])]
    [] [("config", ⟨"prop.json", encode_config [("a", Json.jnum 1)]⟩)] "p1" "p2"
    [("a", Json.jnum 0)] [("a", Json.jnum 1)] (by rfl)
  exact ⟨h.1, h.2⟩

end MDSetup
